import Mathlib

/-!
Verification of the night-orm core: a shallow embedding of the struct-field
introspection helpers (`pkg/utils/reflection.go`), the SQL statement builder
(`QueryBuilder`), and the query-construction / row-count logic of the
PostgreSQL CRUD layer (`PostgresORM.Create`, `Update`, `Delete`), together
with theorems about them.

Go-specific conventions used throughout the embedding:
- `interface{}` values carried by struct fields are restricted to the
  primitive kinds the repository's models and tests use (int, string, bool),
  plus the nil interface value that `reflect` yields for fields that cannot
  be interfaced.
- `reflect.StructTag.Get "db"` returns `""` both when the tag is absent and
  when it is empty, so a single `tag : String` component models both.
- For a struct reached through a non-nil pointer, `CanSet` and
  `CanInterface` hold exactly for exported fields.
- Go maps are modelled as association lists with overwrite-on-insert; Go's
  map iteration order is unspecified, so the list fixes one order and no
  theorem below depends on it.
-/

namespace NightOrm

/-- Runtime field values (`interface{}` payloads). -/
inductive GoVal where
  | int (n : Int)
  | str (s : String)
  | bool (b : Bool)
  | nilv
deriving DecidableEq, Repr

/-- The dynamic type of a `GoVal`, as `reflect.Value.Type` distinguishes it. -/
inductive GoType where
  | int
  | str
  | bool
  | invalid
deriving DecidableEq, Repr

def GoVal.type : GoVal → GoType
  | .int _ => .int
  | .str _ => .str
  | .bool _ => .bool
  | .nilv => .invalid

/-- `reflect.Value.IsZero` on the supported kinds.  (Go panics on the invalid
value; `Create` only reaches that case when a column name is empty, which no
struct field produces.) -/
def goIsZero : GoVal → Bool
  | .int n => n == 0
  | .str s => s == ""
  | .bool b => b == false
  | .nilv => true

/-- `reflect.Type.ConvertibleTo` restricted to the supported kinds: identity
conversions, plus Go's integer-to-string (rune) conversion. -/
def convertibleTo : GoType → GoType → Bool
  | .int, .int => true
  | .str, .str => true
  | .bool, .bool => true
  | .int, .str => true
  | _, _ => false

/-- Go's `string(rune(n))`: the one-character string for a valid code point,
the replacement character otherwise. -/
def intToRuneString (n : Int) : String :=
  if 0 ≤ n ∧ n < 1114112 ∧ (n < 55296 ∨ 57344 ≤ n) then
    String.singleton (Char.ofNat n.toNat)
  else "�"

/-- `reflect.Value.Convert`; only invoked when `convertibleTo` holds and the
types differ, i.e. for the int-to-string conversion. -/
def convertVal (v : GoVal) (t : GoType) : GoVal :=
  match v, t with
  | .int n, .str => .str (intToRuneString n)
  | v, _ => v

def charToLower (c : Char) : Char :=
  if 'A' ≤ c ∧ c ≤ 'Z' then Char.ofNat (c.toNat + 32) else c

/-- `strings.ToLower` on the ASCII identifiers that Go field names use. -/
def strToLower (s : String) : String := ⟨s.data.map charToLower⟩

/-- `pat` is a prefix of the second list (helper for `strings.Contains`). -/
def leadsWith : List Char → List Char → Bool
  | [], _ => true
  | _ :: _, [] => false
  | a :: as, b :: bs => a == b && leadsWith as bs

def charsContain : List Char → List Char → Bool
  | [], pat => pat.isEmpty
  | c :: rest, pat => leadsWith pat (c :: rest) || charsContain rest pat

/-- `strings.Contains s pat`. -/
def goContains (s pat : String) : Bool := charsContain s.data pat.data

def takeUntilComma : List Char → List Char
  | [] => []
  | c :: rest => if c == ',' then [] else c :: takeUntilComma rest

/-- `strings.Split(tag, ",")[0]`: the tag text before the first comma. -/
def tagHead (tag : String) : String := ⟨takeUntilComma tag.data⟩

/-- One struct field as seen through `reflect`: identifier, exportedness, the
raw `db` tag, and the current value. -/
structure Field where
  name : String
  exported : Bool
  tag : String
  value : GoVal
deriving DecidableEq, Repr

/-- The shapes of `interface{}` arguments that `GetStructFields` and
`GetPrimaryKeyField` distinguish: nil, a struct, a pointer to a struct, and
everything else (non-struct after the optional pointer dereference). -/
inductive RecObj where
  | nil
  | struc (fs : List Field)
  | ptr (fs : List Field)
  | other
deriving DecidableEq, Repr

/-- Go map assignment `m[k] = v` (overwrite the key if present). -/
def mapInsert (m : List (String × GoVal)) (k : String) (v : GoVal) :
    List (String × GoVal) :=
  (m.filter (fun p => p.1 != k)) ++ [(k, v)]

/-- Go map read `m[k]`. -/
def mapLookup (m : List (String × GoVal)) (k : String) : Option GoVal :=
  (m.find? (fun p => p.1 == k)).map (fun p => p.2)

/-- Go map `delete(m, k)`. -/
def mapDelete (m : List (String × GoVal)) (k : String) : List (String × GoVal) :=
  m.filter (fun p => p.1 != k)

/-- The column name `GetStructFields` keys a field under: the raw tag
verbatim, or the lower-cased identifier when the tag is empty/absent. -/
def columnNameOf (f : Field) : String :=
  if f.tag == "" then strToLower f.name else f.tag

/-- Loop body of `GetStructFields`: skip unexported fields and `db:"-"`,
otherwise store the field's value under its column name. -/
def getFieldsStep (m : List (String × GoVal)) (f : Field) : List (String × GoVal) :=
  if !f.exported then m
  else if f.tag == "-" then m
  else mapInsert m (columnNameOf f) f.value

def structFieldsMap (fs : List Field) : List (String × GoVal) :=
  fs.foldl getFieldsStep []

/-- `utils.GetStructFields`. -/
def GetStructFields : RecObj → Except String (List (String × GoVal))
  | .nil => .error "objeto não pode ser nil"
  | .struc fs => .ok (structFieldsMap fs)
  | .ptr fs => .ok (structFieldsMap fs)
  | .other => .error "objeto deve ser uma estrutura ou um ponteiro para uma estrutura"

/-- The field-matching test of `SetStructField`: the raw tag equals the
requested name, or the tag is empty/absent and the lower-cased identifier
equals it. -/
def matchesField (f : Field) (fieldName : String) : Bool :=
  f.tag == fieldName || (f.tag == "" && strToLower f.name == fieldName)

/-- The field loop of `SetStructField`: first matching field is checked for
settability and type compatibility and then assigned; every error path
returns before any assignment.  Returns the error (if any) and the resulting
field list. -/
def setFields : List Field → String → GoVal → Option String × List Field
  | [], _, _ => (some "campo não encontrado", [])
  | f :: rest, fieldName, value =>
    if matchesField f fieldName then
      if !f.exported then (some "campo não pode ser definido", f :: rest)
      else if f.value.type == value.type then (none, { f with value := value } :: rest)
      else if convertibleTo value.type f.value.type then
        (none, { f with value := convertVal value f.value.type } :: rest)
      else (some "tipo de valor incompatível com o tipo do campo", f :: rest)
    else
      let r := setFields rest fieldName value
      (r.1, f :: r.2)

/-- The argument shapes `SetStructField` distinguishes: nil interface,
non-pointer, nil pointer, pointer to a non-struct, pointer to a struct. -/
inductive SetObj where
  | nil
  | nonPtr
  | nilPtr
  | ptrOther
  | ptr (fs : List Field)
deriving DecidableEq, Repr

/-- `utils.SetStructField`, returning the error (if any) together with the
state of the pointed-to record afterwards. -/
def SetStructField : SetObj → String → GoVal → Option String × SetObj
  | .nil, _, _ => (some "objeto não pode ser nil", .nil)
  | .nonPtr, _, _ => (some "objeto deve ser um ponteiro não-nil", .nonPtr)
  | .nilPtr, _, _ => (some "objeto deve ser um ponteiro não-nil", .nilPtr)
  | .ptrOther, _, _ => (some "objeto deve ser um ponteiro para uma estrutura", .ptrOther)
  | .ptr fs, fieldName, value =>
    let r := setFields fs fieldName value
    (r.1, .ptr r.2)

/-- `strings.Contains(tag, ",primary")`, the primary-key test of
`GetPrimaryKeyField`'s first loop. -/
def isPrimaryTagged (f : Field) : Bool := goContains f.tag ",primary"

/-- `CanInterface` guard when a loop extracts a field's value. -/
def fieldValueOf (f : Field) : GoVal := if f.exported then f.value else GoVal.nilv

/-- Column/value returned for a primary-tagged field: tag text before the
first comma, defaulting to the lower-cased identifier when empty. -/
def resolvePrimary (f : Field) : String × GoVal :=
  let columnName := tagHead f.tag
  let columnName := if columnName == "" then strToLower f.name else columnName
  (columnName, fieldValueOf f)

/-- Column/value returned by the "field named id" fallback loop: the raw tag
verbatim unless it is empty or `"-"`, in which case `"id"`. -/
def resolveIdFallback (f : Field) : String × GoVal :=
  let columnName := f.tag
  let columnName := if columnName == "" || columnName == "-" then "id" else columnName
  (columnName, fieldValueOf f)

def getPKFields (fs : List Field) : Except String (String × GoVal) :=
  match fs.find? isPrimaryTagged with
  | some f => .ok (resolvePrimary f)
  | none =>
    match fs.find? (fun f => strToLower f.name == "id") with
    | some f => .ok (resolveIdFallback f)
    | none => .error "chave primária não encontrada"

/-- `utils.GetPrimaryKeyField`. -/
def GetPrimaryKeyField : RecObj → Except String (String × GoVal)
  | .nil => .error "objeto não pode ser nil"
  | .struc fs => getPKFields fs
  | .ptr fs => getPKFields fs
  | .other => .error "objeto deve ser uma estrutura ou um ponteiro para uma estrutura"

/-- `utils.QueryBuilder`: accumulated SQL text, ordered bound arguments, and
the 1-based placeholder counter. -/
structure QueryBuilder where
  query : String
  args : List GoVal
  paramIndex : Nat
deriving DecidableEq, Repr

/-- `utils.NewQueryBuilder`. -/
def NewQueryBuilder : QueryBuilder := { query := "", args := [], paramIndex := 1 }

/-- `QueryBuilder.Reset`: clears text and arguments, counter back to 1. -/
def QueryBuilder.Reset (_qb : QueryBuilder) : QueryBuilder :=
  { query := "", args := [], paramIndex := 1 }

/-- `QueryBuilder.AddParam`: append the value, return the placeholder
`"$<paramIndex>"`, increment the counter. -/
def QueryBuilder.AddParam (qb : QueryBuilder) (value : GoVal) : String × QueryBuilder :=
  ("$" ++ toString qb.paramIndex,
   { qb with args := qb.args ++ [value], paramIndex := qb.paramIndex + 1 })

/-- `QueryBuilder.Write`. -/
def QueryBuilder.Write (qb : QueryBuilder) (s : String) : QueryBuilder :=
  { qb with query := qb.query ++ s }

/-- `fmt.Sprintf` restricted to the `%s` verb, which is the only verb the
builder's `WriteWithParams` callers use. -/
def sprintfSAux : List Char → List String → List Char
  | [], _ => []
  | '%' :: 's' :: rest, a :: as => a.data ++ sprintfSAux rest as
  | '%' :: 's' :: rest, [] => "%!s(MISSING)".data ++ sprintfSAux rest []
  | c :: rest, as => c :: sprintfSAux rest as

def sprintfS (format : String) (args : List String) : String :=
  ⟨sprintfSAux format.data args⟩

/-- The placeholder-collection loop shared by `WriteWithParams` and
`WriteInsert`: one `AddParam` per value, placeholders in order. -/
def addParams : QueryBuilder → List GoVal → List String × QueryBuilder
  | qb, [] => ([], qb)
  | qb, v :: vs =>
    let r := qb.AddParam v
    let rest := addParams r.2 vs
    (r.1 :: rest.1, rest.2)

/-- `QueryBuilder.WriteWithParams`. -/
def QueryBuilder.WriteWithParams (qb : QueryBuilder) (format : String)
    (args : List GoVal) : QueryBuilder :=
  let r := addParams qb args
  r.2.Write (sprintfS format r.1)

/-- `QueryBuilder.WriteSelect`. -/
def QueryBuilder.WriteSelect (qb : QueryBuilder) (columns : List String) : QueryBuilder :=
  let qb := qb.Write "SELECT "
  if columns.isEmpty then qb.Write "*"
  else qb.Write (String.intercalate ", " columns)

/-- `QueryBuilder.WriteFrom`. -/
def QueryBuilder.WriteFrom (qb : QueryBuilder) (table : String) : QueryBuilder :=
  (qb.Write " FROM ").Write table

/-- `QueryBuilder.WriteWhere`. -/
def QueryBuilder.WriteWhere (qb : QueryBuilder) (condition : String)
    (args : List GoVal) : QueryBuilder :=
  (qb.Write " WHERE ").WriteWithParams condition args

/-- `QueryBuilder.WriteAnd`. -/
def QueryBuilder.WriteAnd (qb : QueryBuilder) (condition : String)
    (args : List GoVal) : QueryBuilder :=
  (qb.Write " AND ").WriteWithParams condition args

/-- `QueryBuilder.WriteOr`. -/
def QueryBuilder.WriteOr (qb : QueryBuilder) (condition : String)
    (args : List GoVal) : QueryBuilder :=
  (qb.Write " OR ").WriteWithParams condition args

/-- `QueryBuilder.WriteOrderBy`. -/
def QueryBuilder.WriteOrderBy (qb : QueryBuilder) (columns : List String) : QueryBuilder :=
  if columns.isEmpty then qb
  else (qb.Write " ORDER BY ").Write (String.intercalate ", " columns)

/-- `QueryBuilder.WriteLimit`. -/
def QueryBuilder.WriteLimit (qb : QueryBuilder) (limit : Int) : QueryBuilder :=
  if 0 < limit then qb.Write (" LIMIT " ++ toString limit) else qb

/-- `QueryBuilder.WriteOffset`. -/
def QueryBuilder.WriteOffset (qb : QueryBuilder) (offset : Int) : QueryBuilder :=
  if 0 < offset then qb.Write (" OFFSET " ++ toString offset) else qb

/-- `QueryBuilder.WriteInsert`. -/
def QueryBuilder.WriteInsert (qb : QueryBuilder) (table : String)
    (columns : List String) (values : List GoVal) : QueryBuilder :=
  let qb := qb.Write ("INSERT INTO " ++ table ++ " (")
  let qb := qb.Write (String.intercalate ", " columns)
  let qb := qb.Write ") VALUES ("
  let r := addParams qb values
  let qb := r.2.Write (String.intercalate ", " r.1)
  qb.Write ")"

/-- The indexed loop of `WriteUpdate`; Go indexes `values[i]` by the column
index, panicking when `values` is shorter, so the mismatched case is
unreachable for the equal-length inputs the callers construct. -/
def writeUpdateAux : QueryBuilder → Bool → List String → List GoVal → QueryBuilder
  | qb, _, [], _ => qb
  | qb, _, _ :: _, [] => qb
  | qb, isFirst, c :: cs, v :: vs =>
    let qb := if isFirst then qb else qb.Write ", "
    let r := qb.AddParam v
    let qb := r.2.Write (c ++ " = " ++ r.1)
    writeUpdateAux qb false cs vs

/-- `QueryBuilder.WriteUpdate`. -/
def QueryBuilder.WriteUpdate (qb : QueryBuilder) (table : String)
    (columns : List String) (values : List GoVal) : QueryBuilder :=
  writeUpdateAux (qb.Write ("UPDATE " ++ table ++ " SET ")) true columns values

/-- `QueryBuilder.WriteDelete`. -/
def QueryBuilder.WriteDelete (qb : QueryBuilder) (table : String) : QueryBuilder :=
  qb.Write ("DELETE FROM " ++ table)

/-- `QueryBuilder.WriteReturning`. -/
def QueryBuilder.WriteReturning (qb : QueryBuilder) (columns : List String) : QueryBuilder :=
  if columns.isEmpty then qb
  else (qb.Write " RETURNING ").Write (String.intercalate ", " columns)

/-- `QueryBuilder.Build`. -/
def QueryBuilder.Build (qb : QueryBuilder) : String × List GoVal := (qb.query, qb.args)

/-- The builder's write operations (everything except `Reset` and `Build`),
used to quantify over arbitrary call sequences on one builder instance. -/
inductive QBOp where
  | param (v : GoVal)
  | write (s : String)
  | withParams (format : String) (args : List GoVal)
  | select (cols : List String)
  | fromT (table : String)
  | whereC (cond : String) (args : List GoVal)
  | andC (cond : String) (args : List GoVal)
  | orC (cond : String) (args : List GoVal)
  | orderBy (cols : List String)
  | limit (n : Int)
  | offset (n : Int)
  | insert (table : String) (cols : List String) (vals : List GoVal)
  | update (table : String) (cols : List String) (vals : List GoVal)
  | delete (table : String)
  | returning (cols : List String)

def applyOp (qb : QueryBuilder) : QBOp → QueryBuilder
  | .param v => (qb.AddParam v).2
  | .write s => qb.Write s
  | .withParams format args => qb.WriteWithParams format args
  | .select cols => qb.WriteSelect cols
  | .fromT table => qb.WriteFrom table
  | .whereC cond args => qb.WriteWhere cond args
  | .andC cond args => qb.WriteAnd cond args
  | .orC cond args => qb.WriteOr cond args
  | .orderBy cols => qb.WriteOrderBy cols
  | .limit n => qb.WriteLimit n
  | .offset n => qb.WriteOffset n
  | .insert table cols vals => qb.WriteInsert table cols vals
  | .update table cols vals => qb.WriteUpdate table cols vals
  | .delete table => qb.WriteDelete table
  | .returning cols => qb.WriteReturning cols

def applyOps (qb : QueryBuilder) (ops : List QBOp) : QueryBuilder :=
  ops.foldl applyOp qb

/-- The builder's argument/counter invariant: the argument list is exactly
one shorter than the next placeholder number. -/
def qbInv (qb : QueryBuilder) : Prop := qb.args.length + 1 = qb.paramIndex

/-- What `PostgresORM.Create` produces before touching the database: the
built statement, plus which columns went into the INSERT and whether the
RETURNING clause / generated-id write-back branches were taken. -/
structure CreateResult where
  query : String
  args : List GoVal
  insertColumns : List String
  returningRequested : Bool
  writeBackAttempted : Bool
deriving DecidableEq, Repr

/-- Query construction and identity handling of `PostgresORM.Create`, given
the column→value mapping from `GetStructFields` (in some map-iteration
order) and the result of the `ModelWithPrimaryKey` type assertion (`none`
when the model does not implement it).  `returningRequested` records the
`WriteReturning` call and `writeBackAttempted` the `QueryRowContext ... Scan`
plus `SetStructField` branch; both are guarded by `primaryKey != ""` in the
source. -/
def CreateStmt (table : String) (fields : List (String × GoVal))
    (pk : Option (String × GoVal)) : CreateResult :=
  let primaryKey := (pk.map Prod.fst).getD ""
  let primaryKeyValue := (pk.map Prod.snd).getD GoVal.nilv
  let kept := fields.filter (fun cv => !(cv.1 == primaryKey && goIsZero primaryKeyValue))
  let columns := kept.map Prod.fst
  let values := kept.map Prod.snd
  let qb := NewQueryBuilder.WriteInsert table columns values
  let qb := if primaryKey != "" then qb.WriteReturning [primaryKey] else qb
  { query := qb.query, args := qb.args, insertColumns := columns,
    returningRequested := primaryKey != "", writeBackAttempted := primaryKey != "" }

/-- Outcome of `ExecContext` followed by `Result.RowsAffected`: an execution
error, or a rows-affected count that may itself be an error. -/
def ExecOutcome : Type := Except String (Except String Int)

/-- The UPDATE statement `PostgresORM.Update` builds: primary key deleted
from the field map, SET clause over the remainder, WHERE over a condition
pre-formatted with the primary key's freshly numbered placeholder. -/
def updateStmt (table pk : String) (pkv : GoVal)
    (fields : List (String × GoVal)) : String × List GoVal :=
  let fields := mapDelete fields pk
  let columns := fields.map Prod.fst
  let values := fields.map Prod.snd
  let qb := NewQueryBuilder.WriteUpdate table columns values
  let r := qb.AddParam pkv
  let qb := r.2.WriteWhere (pk ++ " = " ++ r.1) []
  qb.Build

/-- `PostgresORM.Update`, with the database call abstracted as `exec`. -/
def PostgresORM.Update (connected : Bool) (table : String) (model : RecObj)
    (pk : String) (pkv : GoVal)
    (exec : String → List GoVal → ExecOutcome) : Except String Unit :=
  if !connected then .error "connection not established"
  else
    match GetStructFields model with
    | .error e => .error ("error retrieving struct fields: " ++ e)
    | .ok fields =>
      let qa := updateStmt table pk pkv fields
      match exec qa.1 qa.2 with
      | .error e => .error ("error updating record: " ++ e)
      | .ok rows =>
        match rows with
        | .error e => .error ("error retrieving affected rows count: " ++ e)
        | .ok n => if n == 0 then .error "no records were updated" else .ok ()

/-- The DELETE statement `PostgresORM.Delete` builds. -/
def deleteStmt (table pk : String) (pkv : GoVal) : String × List GoVal :=
  let qb := NewQueryBuilder.WriteDelete table
  let r := qb.AddParam pkv
  let qb := r.2.WriteWhere (pk ++ " = " ++ r.1) []
  qb.Build

/-- `PostgresORM.Delete`, with the database call abstracted as `exec`. -/
def PostgresORM.Delete (connected : Bool) (table : String)
    (pk : String) (pkv : GoVal)
    (exec : String → List GoVal → ExecOutcome) : Except String Unit :=
  if !connected then .error "connection not established"
  else
    let qa := deleteStmt table pk pkv
    match exec qa.1 qa.2 with
    | .error e => .error ("error deleting record: " ++ e)
    | .ok rows =>
      match rows with
      | .error e => .error ("error retrieving affected rows count: " ++ e)
      | .ok n => if n == 0 then .error "no records were deleted" else .ok ()

/-- The `TestStruct` value of `reflection_test.go`, as a field list. -/
def testStructFields : List Field :=
  [⟨"ID", true, "id,primary", GoVal.int 1⟩,
   ⟨"Name", true, "name", GoVal.str "Test Name"⟩,
   ⟨"Email", true, "email", GoVal.str "test@example.com"⟩,
   ⟨"Ignored", true, "-", GoVal.str "This should be ignored"⟩,
   ⟨"NoTag", true, "", GoVal.str "No tag field"⟩,
   ⟨"unexported", false, "", GoVal.str "Unexported field"⟩]

/-! ### Builder bookkeeping lemmas -/

theorem addParams_args (vs : List GoVal) : ∀ qb : QueryBuilder,
    (addParams qb vs).2.args = qb.args ++ vs := by
  induction vs with
  | nil => intro qb; simp [addParams]
  | cons v vs ih => intro qb; simp [addParams, QueryBuilder.AddParam, ih]

theorem addParams_paramIndex (vs : List GoVal) : ∀ qb : QueryBuilder,
    (addParams qb vs).2.paramIndex = qb.paramIndex + vs.length := by
  induction vs with
  | nil => intro qb; simp [addParams]
  | cons v vs ih => intro qb; simp [addParams, QueryBuilder.AddParam, ih]; omega

theorem writeUpdateAux_delta (cs : List String) : ∀ (vs : List GoVal)
    (qb : QueryBuilder) (b : Bool), ∃ d : List GoVal,
    (writeUpdateAux qb b cs vs).args = qb.args ++ d
    ∧ (writeUpdateAux qb b cs vs).paramIndex = qb.paramIndex + d.length := by
  induction cs with
  | nil => intro vs qb b; exact ⟨[], by simp [writeUpdateAux]⟩
  | cons c cs ih =>
    intro vs qb b
    cases vs with
    | nil => exact ⟨[], by simp [writeUpdateAux]⟩
    | cons v vs =>
      obtain ⟨d, h1, h2⟩ :=
        ih vs ((((if b then qb else qb.Write ", ").AddParam v).2).Write
          (c ++ " = " ++ ((if b then qb else qb.Write ", ").AddParam v).1)) false
      refine ⟨v :: d, ?_, ?_⟩
      · show (writeUpdateAux qb b (c :: cs) (v :: vs)).args = _
        rw [writeUpdateAux, h1]
        cases b <;> simp [QueryBuilder.AddParam, QueryBuilder.Write]
      · show (writeUpdateAux qb b (c :: cs) (v :: vs)).paramIndex = _
        rw [writeUpdateAux, h2]
        cases b <;> simp [QueryBuilder.AddParam, QueryBuilder.Write] <;> omega

theorem applyOp_delta (qb : QueryBuilder) (op : QBOp) : ∃ d : List GoVal,
    (applyOp qb op).args = qb.args ++ d
    ∧ (applyOp qb op).paramIndex = qb.paramIndex + d.length := by
  cases op with
  | param v => exact ⟨[v], by simp [applyOp, QueryBuilder.AddParam]⟩
  | write s => exact ⟨[], by simp [applyOp, QueryBuilder.Write]⟩
  | withParams format args =>
    exact ⟨args, by
      simp [applyOp, QueryBuilder.WriteWithParams, QueryBuilder.Write,
        addParams_args, addParams_paramIndex]⟩
  | select cols =>
    refine ⟨[], ?_, ?_⟩ <;>
      · simp only [applyOp, QueryBuilder.WriteSelect, QueryBuilder.Write]
        split <;> simp
  | fromT table => exact ⟨[], by simp [applyOp, QueryBuilder.WriteFrom, QueryBuilder.Write]⟩
  | whereC cond args =>
    exact ⟨args, by
      simp [applyOp, QueryBuilder.WriteWhere, QueryBuilder.WriteWithParams,
        QueryBuilder.Write, addParams_args, addParams_paramIndex]⟩
  | andC cond args =>
    exact ⟨args, by
      simp [applyOp, QueryBuilder.WriteAnd, QueryBuilder.WriteWithParams,
        QueryBuilder.Write, addParams_args, addParams_paramIndex]⟩
  | orC cond args =>
    exact ⟨args, by
      simp [applyOp, QueryBuilder.WriteOr, QueryBuilder.WriteWithParams,
        QueryBuilder.Write, addParams_args, addParams_paramIndex]⟩
  | orderBy cols =>
    refine ⟨[], ?_, ?_⟩ <;>
      · simp only [applyOp, QueryBuilder.WriteOrderBy, QueryBuilder.Write]
        split <;> simp
  | limit n =>
    refine ⟨[], ?_, ?_⟩ <;>
      · simp only [applyOp, QueryBuilder.WriteLimit, QueryBuilder.Write]
        split <;> simp
  | offset n =>
    refine ⟨[], ?_, ?_⟩ <;>
      · simp only [applyOp, QueryBuilder.WriteOffset, QueryBuilder.Write]
        split <;> simp
  | insert table cols vals =>
    exact ⟨vals, by
      simp [applyOp, QueryBuilder.WriteInsert, QueryBuilder.Write,
        addParams_args, addParams_paramIndex]⟩
  | update table cols vals =>
    obtain ⟨d, h1, h2⟩ := writeUpdateAux_delta cols vals
      ((qb.Write ("UPDATE " ++ table ++ " SET "))) true
    refine ⟨d, ?_, ?_⟩
    · show (writeUpdateAux (qb.Write ("UPDATE " ++ table ++ " SET ")) true cols vals).args = _
      rw [h1]; rfl
    · show (writeUpdateAux (qb.Write ("UPDATE " ++ table ++ " SET "))
          true cols vals).paramIndex = _
      rw [h2]; rfl
  | delete table => exact ⟨[], by simp [applyOp, QueryBuilder.WriteDelete, QueryBuilder.Write]⟩
  | returning cols =>
    refine ⟨[], ?_, ?_⟩ <;>
      · simp only [applyOp, QueryBuilder.WriteReturning, QueryBuilder.Write]
        split <;> simp

theorem applyOp_inv (qb : QueryBuilder) (op : QBOp) (h : qbInv qb) :
    qbInv (applyOp qb op) := by
  obtain ⟨d, h1, h2⟩ := applyOp_delta qb op
  simp only [qbInv, h1, h2, List.length_append]
  simp only [qbInv] at h
  omega

theorem applyOp_paramIndex_le (qb : QueryBuilder) (op : QBOp) :
    qb.paramIndex ≤ (applyOp qb op).paramIndex := by
  obtain ⟨d, -, h2⟩ := applyOp_delta qb op
  omega

theorem applyOps_inv_of (ops : List QBOp) : ∀ qb : QueryBuilder, qbInv qb →
    qbInv (applyOps qb ops) := by
  induction ops with
  | nil => intro qb h; exact h
  | cons op ops ih =>
    intro qb h
    exact ih (applyOp qb op) (applyOp_inv qb op h)

/-! ### Claim theorems: statement builder -/

/-- C5: on a fresh builder, `WriteUpdate "t" ["n"] ["J"]` followed by
`WriteWhere "id = %s" 7` builds exactly `UPDATE t SET n = $1 WHERE id = $2`
with arguments `["J", 7]`; `AddParam` always hands out the current counter
value and increments it, and no builder operation ever decreases the
counter, so numbering is global to the builder instance and never resets
between clauses. -/
theorem update_where_placeholder_numbering :
    ((NewQueryBuilder.WriteUpdate "t" ["n"] [GoVal.str "J"]).WriteWhere "id = %s"
        [GoVal.int 7]).Build
      = ("UPDATE t SET n = $1 WHERE id = $2", [GoVal.str "J", GoVal.int 7])
    ∧ (∀ (qb : QueryBuilder) (v : GoVal),
        (qb.AddParam v).1 = "$" ++ toString qb.paramIndex
        ∧ (qb.AddParam v).2.paramIndex = qb.paramIndex + 1)
    ∧ (∀ (qb : QueryBuilder) (op : QBOp),
        qb.paramIndex ≤ (applyOp qb op).paramIndex) :=
  ⟨by decide, fun _ _ => ⟨rfl, rfl⟩, applyOp_paramIndex_le⟩

/-- C6: on a fresh builder, `WriteSelect "a" "b"`, `WriteFrom "t"`,
`WriteWhere "a = %s" 1`, `WriteAnd "b = %s" "x"` builds exactly
`SELECT a, b FROM t WHERE a = $1 AND b = $2` with arguments `[1, "x"]`,
and `WriteSelect` with an empty column list writes the wildcard
`SELECT *` (leaving arguments and counter untouched). -/
theorem select_from_where_and_chain :
    ((((NewQueryBuilder.WriteSelect ["a", "b"]).WriteFrom "t").WriteWhere "a = %s"
        [GoVal.int 1]).WriteAnd "b = %s" [GoVal.str "x"]).Build
      = ("SELECT a, b FROM t WHERE a = $1 AND b = $2", [GoVal.int 1, GoVal.str "x"])
    ∧ (∀ qb : QueryBuilder,
        (qb.WriteSelect []).query = qb.query ++ "SELECT *"
        ∧ (qb.WriteSelect []).args = qb.args
        ∧ (qb.WriteSelect []).paramIndex = qb.paramIndex) := by
  refine ⟨by decide, fun qb => ⟨?_, rfl, rfl⟩⟩
  show (qb.query ++ "SELECT ") ++ "*" = qb.query ++ "SELECT *"
  have h : ("SELECT " ++ "*" : String) = "SELECT *" := rfl
  rw [String.append_assoc, h]

/-- C9: starting from a fresh builder (or equivalently right after `Reset`,
which restores exactly the fresh state), every sequence of builder
operations keeps the argument list exactly one shorter than the placeholder
counter; hence the n-th parameter added is handed placeholder `$n` and is
appended at position n, and `Build` returns the accumulated text and the
arguments in exactly the order they were added. -/
theorem builder_args_length_invariant :
    (∀ ops : List QBOp, qbInv (applyOps NewQueryBuilder ops))
    ∧ (∀ (ops : List QBOp) (v : GoVal),
        ((applyOps NewQueryBuilder ops).AddParam v).1
          = "$" ++ toString ((applyOps NewQueryBuilder ops).args.length + 1)
        ∧ ((applyOps NewQueryBuilder ops).AddParam v).2.args
          = (applyOps NewQueryBuilder ops).args ++ [v])
    ∧ (∀ qb : QueryBuilder, qb.Build = (qb.query, qb.args))
    ∧ (∀ qb : QueryBuilder, qb.Reset = NewQueryBuilder) := by
  have hinv : ∀ ops : List QBOp, qbInv (applyOps NewQueryBuilder ops) :=
    fun ops => applyOps_inv_of ops NewQueryBuilder rfl
  refine ⟨hinv, fun ops v => ⟨?_, rfl⟩, fun _ => rfl, fun _ => rfl⟩
  have h := hinv ops
  simp only [qbInv] at h
  rw [QueryBuilder.AddParam, h]

/-! ### Claim theorems: zero rows affected -/

/-- C8: when the backend call succeeds but reports zero affected rows,
`Update` returns the "no records were updated" error and `Delete` the
"no records were deleted" error instead of succeeding. -/
theorem update_delete_no_rows_affected (table : String) (fs : List Field)
    (pk : String) (pkv : GoVal) (exec : String → List GoVal → ExecOutcome)
    (h : ∀ q a, exec q a = Except.ok (Except.ok 0)) :
    PostgresORM.Update true table (RecObj.struc fs) pk pkv exec
      = Except.error "no records were updated"
    ∧ PostgresORM.Delete true table pk pkv exec
      = Except.error "no records were deleted" := by
  constructor
  · simp [PostgresORM.Update, GetStructFields, h]
  · simp [PostgresORM.Delete, h]

/-- Witness for C8 at a concrete model, table and backend outcome. -/
theorem update_delete_no_rows_affected_witness :
    PostgresORM.Update true "users" (RecObj.struc testStructFields) "id" (GoVal.int 1)
        (fun _ _ => Except.ok (Except.ok 0)) = Except.error "no records were updated"
    ∧ PostgresORM.Delete true "users" "id" (GoVal.int 1)
        (fun _ _ => Except.ok (Except.ok 0)) = Except.error "no records were deleted" :=
  update_delete_no_rows_affected "users" testStructFields "id" (GoVal.int 1)
    (fun _ _ => Except.ok (Except.ok 0)) (fun _ _ => rfl)

/-! ### Field-map membership lemmas -/

theorem mem_mapInsert {m : List (String × GoVal)} {k : String} {v : GoVal}
    {p : String × GoVal} (h : p ∈ mapInsert m k v) : p ∈ m ∨ p = (k, v) := by
  simp only [mapInsert, List.mem_append, List.mem_filter, List.mem_singleton] at h
  rcases h with ⟨hm, -⟩ | h
  · exact Or.inl hm
  · exact Or.inr h

theorem mapInsert_keyMem_self (m : List (String × GoVal)) (k : String) (v : GoVal) :
    (mapInsert m k v).any (fun p => p.1 == k) = true := by
  simp [mapInsert, List.any_append]

theorem mapInsert_keyMem_mono {m : List (String × GoVal)} {k' : String}
    (k : String) (v : GoVal) (h : m.any (fun p => p.1 == k') = true) :
    (mapInsert m k v).any (fun p => p.1 == k') = true := by
  by_cases hk : k' = k
  · subst hk; exact mapInsert_keyMem_self m k' v
  · simp only [List.any_eq_true] at h ⊢
    obtain ⟨p, hp, hpk⟩ := h
    refine ⟨p, ?_, hpk⟩
    simp only [mapInsert, List.mem_append, List.mem_filter]
    have hp1 : p.1 = k' := by simpa using hpk
    exact Or.inl ⟨hp, by simp [hp1, hk]⟩

theorem getFieldsStep_keyMem_mono {m : List (String × GoVal)} {k' : String}
    (f : Field) (h : m.any (fun p => p.1 == k') = true) :
    (getFieldsStep m f).any (fun p => p.1 == k') = true := by
  unfold getFieldsStep
  split
  · exact h
  · split
    · exact h
    · exact mapInsert_keyMem_mono _ _ h

theorem foldl_getFieldsStep_keyMem_mono (fs : List Field) :
    ∀ {acc : List (String × GoVal)} {k' : String},
    acc.any (fun p => p.1 == k') = true →
    (fs.foldl getFieldsStep acc).any (fun p => p.1 == k') = true := by
  induction fs with
  | nil => intro acc k' h; exact h
  | cons f fs ih => intro acc k' h; exact ih (getFieldsStep_keyMem_mono f h)

theorem mem_getFieldsStep {m : List (String × GoVal)} {f : Field}
    {p : String × GoVal} (h : p ∈ getFieldsStep m f) :
    p ∈ m ∨ (f.exported = true ∧ f.tag ≠ "-" ∧ p = (columnNameOf f, f.value)) := by
  unfold getFieldsStep at h
  split at h
  · exact Or.inl h
  · split at h
    · exact Or.inl h
    · rcases mem_mapInsert h with hm | hp
      · exact Or.inl hm
      · rename_i hexp htag
        refine Or.inr ⟨by simpa using hexp, ?_, hp⟩
        simpa using htag

theorem mem_foldl_getFieldsStep (fs : List Field) :
    ∀ {acc : List (String × GoVal)} {p : String × GoVal},
    p ∈ fs.foldl getFieldsStep acc →
    p ∈ acc ∨ ∃ f ∈ fs, f.exported = true ∧ f.tag ≠ "-"
      ∧ columnNameOf f = p.1 ∧ f.value = p.2 := by
  induction fs with
  | nil => intro acc p h; exact Or.inl h
  | cons f fs ih =>
    intro acc p h
    rcases ih h with hacc | ⟨g, hg, hx⟩
    · rcases mem_getFieldsStep hacc with hm | ⟨h1, h2, h3⟩
      · exact Or.inl hm
      · exact Or.inr ⟨f, List.mem_cons_self f fs, h1, h2, by simp [h3]⟩
    · exact Or.inr ⟨g, List.mem_cons_of_mem f hg, hx⟩

theorem field_key_in_foldl (fs : List Field) :
    ∀ {f : Field} {acc : List (String × GoVal)}, f ∈ fs → f.exported = true →
    f.tag ≠ "-" →
    (fs.foldl getFieldsStep acc).any (fun p => p.1 == columnNameOf f) = true := by
  induction fs with
  | nil => intro f acc h; exact absurd h (List.not_mem_nil f)
  | cons g fs ih =>
    intro f acc hmem hexp htag
    rcases List.mem_cons.1 hmem with rfl | hmem
    · have hstep : (getFieldsStep acc f).any (fun p => p.1 == columnNameOf f) = true := by
        unfold getFieldsStep
        rw [if_neg (by simp [hexp]), if_neg (by simp [htag])]
        exact mapInsert_keyMem_self acc (columnNameOf f) f.value
      exact foldl_getFieldsStep_keyMem_mono fs hstep
    · exact ih hmem hexp htag

/-! ### Claim theorem: exported fields and the "-" sentinel (C7) -/

/-- C7: every entry of the mapping `GetStructFields` returns comes from an
exported field whose tag is not the `"-"` sentinel (so excluded fields never
contribute an entry), and conversely every exported field without the
sentinel has its column name present as a key of the mapping. -/
theorem structFields_exported_and_sentinel (fs : List Field) :
    GetStructFields (RecObj.struc fs) = Except.ok (structFieldsMap fs)
    ∧ (∀ p ∈ structFieldsMap fs, ∃ f ∈ fs, f.exported = true ∧ f.tag ≠ "-"
        ∧ columnNameOf f = p.1 ∧ f.value = p.2)
    ∧ (∀ f ∈ fs, f.exported = true → f.tag ≠ "-" →
        (structFieldsMap fs).any (fun p => p.1 == columnNameOf f) = true) := by
  refine ⟨rfl, ?_, ?_⟩
  · intro p hp
    rcases mem_foldl_getFieldsStep fs hp with h | h
    · exact absurd h (List.not_mem_nil p)
    · exact h
  · intro f hf hexp htag
    exact field_key_in_foldl fs hf hexp htag

/-- Witness for C7 at the test fixture's field list: the entry produced for
the tagged field `Name` is present as a key of the mapping. -/
theorem structFields_exported_and_sentinel_witness :
    (structFieldsMap testStructFields).any
      (fun p => p.1 == columnNameOf ⟨"Name", true, "name", GoVal.str "Test Name"⟩)
      = true :=
  (structFields_exported_and_sentinel testStructFields).2.2
    ⟨"Name", true, "name", GoVal.str "Test Name"⟩ (by decide) rfl (by decide)

/-! ### Claim theorem: no mutation on error (C10) -/

theorem setFields_error_unchanged (n : String) (v : GoVal) : ∀ fs : List Field,
    (setFields fs n v).1.isSome = true → (setFields fs n v).2 = fs := by
  intro fs
  induction fs with
  | nil => intro _; rfl
  | cons f rest ih =>
    intro h
    simp only [setFields] at h ⊢
    split_ifs at h ⊢ <;> first
      | rfl
      | exact congrArg (fun l => f :: l) (ih h)
      | simp at h

/-- C10: whenever `SetStructField` reports an error (nil object, non-pointer
or non-struct input, non-settable field, inconvertible value type, or no
matching field), the record is left exactly as it was: no field is mutated
on any error path. -/
theorem setStructField_error_preserves_record (obj : SetObj) (n : String)
    (v : GoVal) (h : (SetStructField obj n v).1.isSome = true) :
    (SetStructField obj n v).2 = obj := by
  cases obj with
  | nil => rfl
  | nonPtr => rfl
  | nilPtr => rfl
  | ptrOther => rfl
  | ptr fs =>
    simp only [SetStructField] at h ⊢
    exact congrArg SetObj.ptr (setFields_error_unchanged n v fs h)

/-- Witness for C10: asking for a nonexistent field errors and leaves the
test fixture's record untouched. -/
theorem setStructField_error_preserves_record_witness :
    (SetStructField (SetObj.ptr testStructFields) "nonexistent" (GoVal.int 0)).2
      = SetObj.ptr testStructFields :=
  setStructField_error_preserves_record (SetObj.ptr testStructFields) "nonexistent"
    (GoVal.int 0) (by decide)

/-! ### Claim theorems: Create identity handling (C1) -/

/-- C1 counterexample: at a record whose identity value is non-zero (here
`id = 5`), `Create` still appends `RETURNING id` to the statement and still
takes the generated-value write-back branch, contrary to the claim that no
generated-value retrieval is attempted for a non-zero identity. -/
theorem create_returning_on_nonzero_identity :
    goIsZero (GoVal.int 5) = false
    ∧ (CreateStmt "users" [("id", GoVal.int 5), ("name", GoVal.str "J")]
        (some ("id", GoVal.int 5))).insertColumns = ["id", "name"]
    ∧ (CreateStmt "users" [("id", GoVal.int 5), ("name", GoVal.str "J")]
        (some ("id", GoVal.int 5))).returningRequested = true
    ∧ (CreateStmt "users" [("id", GoVal.int 5), ("name", GoVal.str "J")]
        (some ("id", GoVal.int 5))).writeBackAttempted = true
    ∧ (CreateStmt "users" [("id", GoVal.int 5), ("name", GoVal.str "J")]
        (some ("id", GoVal.int 5))).query
      = "INSERT INTO users (id, name) VALUES ($1, $2) RETURNING id" := by decide

/-- C1 as amended: when the model exposes a primary-key column, a zero
identity value omits that column from the INSERT column list while a
non-zero value keeps every column; but the RETURNING clause and the
generated-value write-back are attempted in both cases (they depend only on
the primary-key name being non-empty, not on the value being zero). -/
theorem create_identity_handling (table : String) (fields : List (String × GoVal))
    (pkName : String) (pkVal : GoVal) (h : pkName ≠ "") :
    (goIsZero pkVal = true →
        pkName ∉ (CreateStmt table fields (some (pkName, pkVal))).insertColumns)
    ∧ (goIsZero pkVal = false →
        (CreateStmt table fields (some (pkName, pkVal))).insertColumns
          = fields.map Prod.fst)
    ∧ (CreateStmt table fields (some (pkName, pkVal))).returningRequested = true
    ∧ (CreateStmt table fields (some (pkName, pkVal))).writeBackAttempted = true
    ∧ (∃ s, (CreateStmt table fields (some (pkName, pkVal))).query
        = s ++ (" RETURNING " ++ pkName)) := by
  have e1 : ((some (pkName, pkVal)).map Prod.fst).getD "" = pkName := rfl
  have e2 : ((some (pkName, pkVal)).map Prod.snd).getD GoVal.nilv = pkVal := rfl
  have hb : (pkName != "") = true := by simp [bne_iff_ne, h]
  refine ⟨?_, ?_, ?_, ?_, ?_⟩
  · intro hz hmem
    simp only [CreateStmt, e1, e2, List.mem_map,
      List.mem_filter, hz, Bool.and_true, Bool.not_eq_true',
      beq_eq_false_iff_ne, ne_eq] at hmem
    obtain ⟨cv, ⟨-, hpred⟩, hfst⟩ := hmem
    exact hpred hfst
  · intro hz
    simp [CreateStmt, hz]
  · simp [CreateStmt, hb]
  · simp [CreateStmt, hb]
  · have hq : ∀ qb : QueryBuilder, (qb.WriteReturning [pkName]).query
        = qb.query ++ (" RETURNING " ++ pkName) := by
      intro qb
      have hi : String.intercalate ", " [pkName] = pkName := rfl
      simp [QueryBuilder.WriteReturning, QueryBuilder.Write, hi, String.append_assoc]
    simp only [CreateStmt, e1, e2, hb, eq_self_iff_true, if_true]
    exact ⟨_, hq _⟩

/-- Witness for C1 (amended) at concrete zero and non-zero identity values. -/
theorem create_identity_handling_witness :
    "id" ∉ (CreateStmt "users" [("id", GoVal.int 0), ("name", GoVal.str "J")]
        (some ("id", GoVal.int 0))).insertColumns
    ∧ (CreateStmt "users" [("id", GoVal.int 5), ("name", GoVal.str "J")]
        (some ("id", GoVal.int 5))).insertColumns
      = [("id", GoVal.int 5), ("name", GoVal.str "J")].map Prod.fst
    ∧ (CreateStmt "users" [("id", GoVal.int 0), ("name", GoVal.str "J")]
        (some ("id", GoVal.int 0))).returningRequested = true :=
  ⟨(create_identity_handling "users" [("id", GoVal.int 0), ("name", GoVal.str "J")]
      "id" (GoVal.int 0) (by decide)).1 rfl,
   (create_identity_handling "users" [("id", GoVal.int 5), ("name", GoVal.str "J")]
      "id" (GoVal.int 5) (by decide)).2.1 rfl,
   (create_identity_handling "users" [("id", GoVal.int 0), ("name", GoVal.str "J")]
      "id" (GoVal.int 0) (by decide)).2.2.1⟩

/-! ### Claim theorem: tag options are not stripped (C2) -/

/-- C2: at the `TestStruct` fixture of `reflection_test.go`, the field
tagged `db:"id,primary"` is keyed under the whole tag `"id,primary"` —
`GetStructFields` never splits the tag at commas — so the lookup of `"id"`
that the repository's own `TestGetStructFields` performs comes back empty,
while the options-stripped head of the tag is `"id"`. -/
theorem getStructFields_keeps_tag_options :
    GetStructFields (RecObj.struc testStructFields)
      = Except.ok [("id,primary", GoVal.int 1), ("name", GoVal.str "Test Name"),
          ("email", GoVal.str "test@example.com"), ("notag", GoVal.str "No tag field")]
    ∧ mapLookup (structFieldsMap testStructFields) "id" = none
    ∧ mapLookup (structFieldsMap testStructFields) "id,primary" = some (GoVal.int 1)
    ∧ tagHead "id,primary" = "id" :=
  ⟨rfl, by decide, by decide, rfl⟩

/-! ### Claim theorems: SetStructField matching (C3) -/

/-- C3 counterexample: for a field tagged `db:"id,primary"` the tag-derived
column name is `"id"`, yet `SetStructField` with logical name `"id"` does
not assign it and reports "field not found", because the code compares the
raw tag (options included) with the logical name. -/
theorem setStructField_comma_tag_not_found :
    tagHead "id,primary" = "id"
    ∧ SetStructField (SetObj.ptr [⟨"ID", true, "id,primary", GoVal.int 1⟩]) "id"
        (GoVal.int 7)
      = (some "campo não encontrado",
         SetObj.ptr [⟨"ID", true, "id,primary", GoVal.int 1⟩]) := by decide

theorem setFields_skip_no_match (n : String) (v : GoVal) :
    ∀ (pre fs : List Field), (∀ g ∈ pre, matchesField g n = false) →
    setFields (pre ++ fs) n v
      = ((setFields fs n v).1, pre ++ (setFields fs n v).2) := by
  intro pre
  induction pre with
  | nil => intro fs _; simp
  | cons g pre ih =>
    intro fs hall
    have hg : matchesField g n = false := hall g (List.mem_cons_self g pre)
    have hrest : ∀ x ∈ pre, matchesField x n = false :=
      fun x hx => hall x (List.mem_cons_of_mem g hx)
    simp only [List.cons_append, setFields, hg, Bool.false_eq_true, if_false,
      List.append_eq, ih fs hrest]

/-- C3 as amended: a field matches only when its ENTIRE `db` tag (option
flags included) equals the logical name, or — tag absent/empty — when its
lower-cased identifier equals it; the first such field is assigned and when
none matches a "field not found" error is returned. -/
theorem setStructField_full_tag_matching :
    (∀ (fs : List Field) (n : String) (v : GoVal),
        (∀ f ∈ fs, matchesField f n = false) →
        SetStructField (SetObj.ptr fs) n v
          = (some "campo não encontrado", SetObj.ptr fs))
    ∧ (∀ (pre post : List Field) (f : Field) (n : String) (v : GoVal),
        (∀ g ∈ pre, matchesField g n = false) → matchesField f n = true →
        f.exported = true → f.value.type = v.type →
        SetStructField (SetObj.ptr (pre ++ f :: post)) n v
          = (none, SetObj.ptr (pre ++ { f with value := v } :: post))) := by
  constructor
  · intro fs n v hall
    have h := setFields_skip_no_match n v fs [] hall
    simp only [List.append_nil] at h
    simp [SetStructField, h, setFields]
  · intro pre post f n v hpre hm hexp htype
    have h := setFields_skip_no_match n v pre (f :: post) hpre
    have hf : setFields (f :: post) n v
        = (none, { f with value := v } :: post) := by
      simp [setFields, hm, hexp, htype]
    simp [SetStructField, h, hf]

/-- Witness for C3 (amended): no match yields "field not found" and leaves
the record; an exact full-tag match assigns exactly that field. -/
theorem setStructField_full_tag_matching_witness :
    SetStructField (SetObj.ptr [⟨"Name", true, "name", GoVal.str "a"⟩]) "nope"
        (GoVal.int 0)
      = (some "campo não encontrado", SetObj.ptr [⟨"Name", true, "name", GoVal.str "a"⟩])
    ∧ SetStructField (SetObj.ptr [⟨"Name", true, "name", GoVal.str "a"⟩]) "name"
        (GoVal.str "b")
      = (none, SetObj.ptr [⟨"Name", true, "name", GoVal.str "b"⟩]) := by
  constructor
  · exact setStructField_full_tag_matching.1
      [⟨"Name", true, "name", GoVal.str "a"⟩] "nope" (GoVal.int 0) (by decide)
  · have h := setStructField_full_tag_matching.2 [] []
      ⟨"Name", true, "name", GoVal.str "a"⟩ "name" (GoVal.str "b")
      (by simp) (by decide) rfl rfl
    simpa using h

/-! ### Claim theorems: primary-key discovery (C4) -/

/-- C4 counterexample: a field named `ID` whose tag is `"uid,unique"` (a
comma-bearing tag without the primary option) is returned by the name-based
fallback under the FULL tag `"uid,unique"`, not under the options-stripped
resolved column name `"uid"`. -/
theorem getPrimaryKey_fallback_keeps_full_tag :
    GetPrimaryKeyField (RecObj.struc [⟨"ID", true, "uid,unique", GoVal.int 3⟩])
      = Except.ok ("uid,unique", GoVal.int 3)
    ∧ tagHead "uid,unique" = "uid"
    ∧ ("uid,unique" : String) ≠ "uid" :=
  ⟨rfl, rfl, by decide⟩

theorem find?_of_first {α : Type} (p : α → Bool) :
    ∀ (pre : List α) (x : α) (post : List α), (∀ g ∈ pre, p g = false) →
    p x = true → List.find? p (pre ++ x :: post) = some x := by
  intro pre
  induction pre with
  | nil => intro x post _ hx; simp [List.find?_cons, hx]
  | cons g pre ih =>
    intro x post hall hx
    have hg : p g = false := hall g (List.mem_cons_self g pre)
    have hrest : ∀ y ∈ pre, p y = false :=
      fun y hy => hall y (List.mem_cons_of_mem g hy)
    simp [List.find?_cons, hg, ih x post hrest hx]

/-- C4 as amended: a field whose tag contains `,primary` wins (its column
name is the tag's options-stripped head, defaulting to the lower-cased
identifier) even when a field named "id" exists; with no primary-tagged
field, the first field case-insensitively named "id" is returned with its
FULL tag as the column name (only empty or `"-"` tags default to `"id"`);
with neither, the identity-missing error is returned. -/
theorem getPrimaryKey_resolution :
    (∀ fs : List Field, fs.any isPrimaryTagged = true →
        ∃ f ∈ fs, isPrimaryTagged f = true
          ∧ GetPrimaryKeyField (RecObj.struc fs) = Except.ok (resolvePrimary f))
    ∧ (∀ (pre post : List Field) (f : Field),
        ((pre ++ f :: post).any isPrimaryTagged) = false →
        (∀ g ∈ pre, (strToLower g.name == "id") = false) →
        (strToLower f.name == "id") = true →
        GetPrimaryKeyField (RecObj.struc (pre ++ f :: post))
          = Except.ok (resolveIdFallback f))
    ∧ (∀ fs : List Field, fs.any isPrimaryTagged = false →
        (∀ f ∈ fs, (strToLower f.name == "id") = false) →
        GetPrimaryKeyField (RecObj.struc fs)
          = Except.error "chave primária não encontrada") := by
  refine ⟨?_, ?_, ?_⟩
  · intro fs hany
    have hsome : (fs.find? isPrimaryTagged).isSome := by
      rw [List.find?_isSome]
      simpa using List.any_eq_true.1 hany
    obtain ⟨f, hf⟩ := Option.isSome_iff_exists.1 hsome
    exact ⟨f, List.mem_of_find?_eq_some hf, List.find?_some hf,
      by simp [GetPrimaryKeyField, getPKFields, hf]⟩
  · intro pre post f hany hpre hf
    have hnone : (pre ++ f :: post).find? isPrimaryTagged = none := by
      rw [List.find?_eq_none]
      intro x hx
      simp only [List.any_eq_false] at hany
      simp [hany x hx]
    have hfind := find?_of_first (fun g => strToLower g.name == "id") pre f post hpre hf
    simp [GetPrimaryKeyField, getPKFields, hnone, hfind]
  · intro fs hany hnoid
    have hnone : fs.find? isPrimaryTagged = none := by
      rw [List.find?_eq_none]
      intro x hx
      simp only [List.any_eq_false] at hany
      simp [hany x hx]
    have hnone2 : fs.find? (fun f => strToLower f.name == "id") = none := by
      rw [List.find?_eq_none]
      intro x hx
      simp [hnoid x hx]
    simp [GetPrimaryKeyField, getPKFields, hnone, hnone2]

/-- Witness for C4 (amended) at three concrete records: a primary-tagged
field, a name-based fallback, and a record with no identity. -/
theorem getPrimaryKey_resolution_witness :
    GetPrimaryKeyField (RecObj.struc [⟨"Code", true, "code,primary", GoVal.int 9⟩])
      = Except.ok ("code", GoVal.int 9)
    ∧ GetPrimaryKeyField (RecObj.struc [⟨"ID", true, "", GoVal.int 4⟩])
      = Except.ok ("id", GoVal.int 4)
    ∧ GetPrimaryKeyField (RecObj.struc [⟨"Name", true, "name", GoVal.str "x"⟩])
      = Except.error "chave primária não encontrada" := by
  refine ⟨?_, ?_, ?_⟩
  · obtain ⟨f, hf, -, h⟩ := getPrimaryKey_resolution.1
      [⟨"Code", true, "code,primary", GoVal.int 9⟩] (by decide)
    have hf2 : f = ⟨"Code", true, "code,primary", GoVal.int 9⟩ := by simpa using hf
    rw [hf2] at h
    exact h
  · have h := getPrimaryKey_resolution.2.1 [] [] ⟨"ID", true, "", GoVal.int 4⟩
      (by decide) (by simp) (by decide)
    simpa using h
  · exact getPrimaryKey_resolution.2.2 [⟨"Name", true, "name", GoVal.str "x"⟩]
      (by decide) (by decide)

end NightOrm
